import Mathlib

/-!
Verification of the recurrent multi-agent PPO learner
(`mava/systems/ppo/anakin/rec_mappo.py`).

Arrays are modelled as lists (nested lists for higher ranks); machine
floats are modelled as rationals; external collaborators (networks,
environment, optimiser transforms) are abstract functions.
-/

namespace RecMappo

/-- Arithmetic mean of a list of rationals, `xs.mean()` in the source
(division is total on `ℚ`, so the empty list gives `0`). -/
def meanQ (xs : List ℚ) : ℚ := xs.sum / xs.length

/-- `jnp.clip(x, lo, hi)`: `min(max(x, lo), hi)`. -/
def clipQ (lo hi x : ℚ) : ℚ := min hi (max lo x)

/-! ## Advantage Estimator

`calculate_gae` is imported by `rec_mappo.py` from `mava.utils.multistep`,
whose source is not part of this repository snapshot; it is modelled from
the spec here.
-/

/-- Per-step data of one transition consumed by the advantage estimator:
the stored prior-done flag, the value estimate and the reward. -/
structure GaeEntry where
  done : Bool
  value : ℚ
  reward : ℚ
  deriving DecidableEq, Repr, Inhabited

/-- Numeric coercion of a done flag, `(1 - done)` masks in the source. -/
def doneQ (d : Bool) : ℚ := if d then 1 else 0

/-- Modelled from the spec: the backward recursive scan of the advantage
estimator (`calculate_gae`, from the missing module `mava.utils.multistep`).
The carry is `(running advantage, next value, next done)`; the window is
processed in reverse temporal order; at each step the TD residual is
`reward + γ·(1-done)·next_value − value` and the running advantage is
`residual + γ·λ·(1-done)·running_advantage`, where the done flag is the one
aligned with `next_value` (the following step's stored prior-done flag, or
the final done flags at the last step — "Done flags fully zero out the
bootstrap contribution across episode boundaries"). -/
def gaeRev (gamma lam : ℚ) : List GaeEntry → ℚ × ℚ × Bool → (ℚ × ℚ × Bool) × List ℚ
  | [], c => (c, [])
  | e :: ts, c =>
    let r := gaeRev gamma lam ts c
    let gae0 := r.1.1
    let nextValue := r.1.2.1
    let nextDone := r.1.2.2
    let delta := e.reward + gamma * nextValue * (1 - doneQ nextDone) - e.value
    let g := delta + gamma * lam * (1 - doneQ nextDone) * gae0
    ((g, e.value, e.done), g :: r.2)

/-- Modelled from the spec: `calculate_gae(traj_batch, last_val, last_done,
gamma, gae_lambda)` returns `(advantages, advantages + traj_batch.value)`;
the reverse scan starts from carry `(0, bootstrap value, final done)`. -/
def calculate_gae (traj : List GaeEntry) (last_val : ℚ) (last_done : Bool)
    (gamma gae_lambda : ℚ) : List ℚ × List ℚ :=
  let advantages := (gaeRev gamma gae_lambda traj (0, last_val, last_done)).2
  (advantages, List.zipWith (fun a e => a + e.value) advantages traj)

theorem gaeRev_length (gamma lam : ℚ) (ts : List GaeEntry) (c : ℚ × ℚ × Bool) :
    (gaeRev gamma lam ts c).2.length = ts.length := by
  induction ts with
  | nil => rfl
  | cons e ts ih => simp [gaeRev, ih]

theorem gaeRev_carry_nil (gamma lam : ℚ) (c : ℚ × ℚ × Bool) :
    (gaeRev gamma lam [] c).1 = c := rfl

theorem gaeRev_carry_cons (gamma lam : ℚ) (e : GaeEntry) (ts : List GaeEntry)
    (c : ℚ × ℚ × Bool) :
    (gaeRev gamma lam (e :: ts) c).1 =
      ((gaeRev gamma lam (e :: ts) c).2.getD 0 0, e.value, e.done) := by
  simp [gaeRev]

theorem getD_zipWith_add_value (advs : List ℚ) (traj : List GaeEntry) (t : Nat)
    (h1 : t < advs.length) (h2 : t < traj.length) :
    (List.zipWith (fun a e => a + e.value) advs traj).getD t 0 =
      advs.getD t 0 + (traj.getD t default).value := by
  induction advs generalizing traj t with
  | nil => simp at h1
  | cons a advs ih =>
    cases traj with
    | nil => simp at h2
    | cons e traj =>
      cases t with
      | zero => simp
      | succ s =>
        simp only [List.zipWith_cons_cons, List.getD_cons_succ]
        exact ih traj s (by simpa using h1) (by simpa using h2)

theorem gaeRev_getD (gamma lam : ℚ) (c : ℚ × ℚ × Bool) (traj : List GaeEntry)
    (t : Nat) (ht : t < traj.length) :
    (gaeRev gamma lam traj c).2.getD t 0 =
      ((traj.getD t default).reward
        + gamma
          * (1 - doneQ (if t + 1 < traj.length
              then (traj.getD (t + 1) default).done else c.2.2))
          * (if t + 1 < traj.length
              then (traj.getD (t + 1) default).value else c.2.1)
        - (traj.getD t default).value)
      + gamma * lam
        * (1 - doneQ (if t + 1 < traj.length
            then (traj.getD (t + 1) default).done else c.2.2))
        * (if t + 1 < traj.length
            then (gaeRev gamma lam traj c).2.getD (t + 1) 0 else c.1) := by
  induction traj generalizing t with
  | nil => simp at ht
  | cons e ts ih =>
    cases t with
    | zero =>
      cases ts with
      | nil =>
        simp only [gaeRev, List.length_cons, List.length_nil]
        norm_num
        ring
      | cons f ts' =>
        simp only [gaeRev, List.length_cons, List.getD_cons_zero, List.getD_cons_succ]
        norm_num
        ring
    | succ s =>
      have hs : s < ts.length := by simpa using ht
      have := ih s hs
      simp only [gaeRev, List.length_cons, List.getD_cons_succ]
      simpa using this

/-- C2: the advantages and targets returned by `calculate_gae` satisfy the
backward recursion: the TD residual at step `t` is
`reward_t + gamma*(1-done)*next_value - value_t` with `next_value` the
bootstrap value at the last step and the following step's stored value
otherwise (and `done` the flag aligned with `next_value`); the advantage at
`t` is `residual + gamma*gae_lambda*(1-done)*running_advantage`; the target
at `t` equals `advantage_t + value_t`. -/
theorem calculate_gae_backward_recursion (traj : List GaeEntry) (last_val : ℚ)
    (last_done : Bool) (gamma gae_lambda : ℚ) (t : Nat) (ht : t < traj.length) :
    (calculate_gae traj last_val last_done gamma gae_lambda).1.getD t 0 =
      ((traj.getD t default).reward
        + gamma
          * (1 - doneQ (if t + 1 < traj.length
              then (traj.getD (t + 1) default).done else last_done))
          * (if t + 1 < traj.length
              then (traj.getD (t + 1) default).value else last_val)
        - (traj.getD t default).value)
      + gamma * gae_lambda
        * (1 - doneQ (if t + 1 < traj.length
            then (traj.getD (t + 1) default).done else last_done))
        * (if t + 1 < traj.length
            then (calculate_gae traj last_val last_done gamma gae_lambda).1.getD (t + 1) 0
            else 0)
    ∧ (calculate_gae traj last_val last_done gamma gae_lambda).2.getD t 0 =
        (calculate_gae traj last_val last_done gamma gae_lambda).1.getD t 0
          + (traj.getD t default).value := by
  constructor
  · exact gaeRev_getD gamma gae_lambda (0, last_val, last_done) traj t ht
  · exact getD_zipWith_add_value _ traj t (by rw [gaeRev_length]; exact ht) ht

/-- Witness for C2 at the spec's test trajectory: length 3, rewards
`[1,1,1]`, all done flags false, `γ = 0.99`, `λ = 0.95`, values `[2,3,4]`,
bootstrap `5`, at step `t = 1`. -/
theorem calculate_gae_backward_recursion_witness :
    (1 < ([⟨false, 2, 1⟩, ⟨false, 3, 1⟩, ⟨false, 4, 1⟩] : List GaeEntry).length)
    ∧ ((calculate_gae [⟨false, 2, 1⟩, ⟨false, 3, 1⟩, ⟨false, 4, 1⟩] 5 false
          (99/100) (19/20)).1.getD 1 0 =
        ((([⟨false, 2, 1⟩, ⟨false, 3, 1⟩, ⟨false, 4, 1⟩] : List GaeEntry).getD 1
            default).reward
          + (99/100)
            * (1 - doneQ (if 1 + 1 <
                ([⟨false, 2, 1⟩, ⟨false, 3, 1⟩, ⟨false, 4, 1⟩] : List GaeEntry).length
                then (([⟨false, 2, 1⟩, ⟨false, 3, 1⟩, ⟨false, 4, 1⟩] :
                  List GaeEntry).getD (1 + 1) default).done else false))
            * (if 1 + 1 <
                ([⟨false, 2, 1⟩, ⟨false, 3, 1⟩, ⟨false, 4, 1⟩] : List GaeEntry).length
                then (([⟨false, 2, 1⟩, ⟨false, 3, 1⟩, ⟨false, 4, 1⟩] :
                  List GaeEntry).getD (1 + 1) default).value else 5)
          - (([⟨false, 2, 1⟩, ⟨false, 3, 1⟩, ⟨false, 4, 1⟩] : List GaeEntry).getD 1
              default).value)
        + (99/100) * (19/20)
          * (1 - doneQ (if 1 + 1 <
              ([⟨false, 2, 1⟩, ⟨false, 3, 1⟩, ⟨false, 4, 1⟩] : List GaeEntry).length
              then (([⟨false, 2, 1⟩, ⟨false, 3, 1⟩, ⟨false, 4, 1⟩] :
                List GaeEntry).getD (1 + 1) default).done else false))
          * (if 1 + 1 <
              ([⟨false, 2, 1⟩, ⟨false, 3, 1⟩, ⟨false, 4, 1⟩] : List GaeEntry).length
              then (calculate_gae [⟨false, 2, 1⟩, ⟨false, 3, 1⟩, ⟨false, 4, 1⟩] 5 false
                (99/100) (19/20)).1.getD (1 + 1) 0
              else 0)
      ∧ (calculate_gae [⟨false, 2, 1⟩, ⟨false, 3, 1⟩, ⟨false, 4, 1⟩] 5 false
            (99/100) (19/20)).2.getD 1 0 =
          (calculate_gae [⟨false, 2, 1⟩, ⟨false, 3, 1⟩, ⟨false, 4, 1⟩] 5 false
            (99/100) (19/20)).1.getD 1 0
          + (([⟨false, 2, 1⟩, ⟨false, 3, 1⟩, ⟨false, 4, 1⟩] : List GaeEntry).getD 1
              default).value) :=
  ⟨by decide,
   calculate_gae_backward_recursion
     [⟨false, 2, 1⟩, ⟨false, 3, 1⟩, ⟨false, 4, 1⟩] 5 false (99/100) (19/20) 1
     (by decide)⟩

/-- Counterexample to C3 as stated: two windows of length 2 agreeing at all
steps `≤ 0` (identical entries at index 0), with the stored done flag at
step 0 equal to `true`, yet the advantages at step 0 differ when the reward
at step 1 differs (the stored flags are prior-done flags, so `done = true`
at step `t` marks a boundary before step `t`, not after it). -/
theorem gae_done_masking_counterexample :
    (([⟨true, 0, 0⟩, ⟨false, 0, 1⟩] : List GaeEntry).getD 0 default =
      ([⟨true, 0, 0⟩, ⟨false, 0, 0⟩] : List GaeEntry).getD 0 default)
    ∧ ((([⟨true, 0, 0⟩, ⟨false, 0, 1⟩] : List GaeEntry).getD 0 default).done = true)
    ∧ (calculate_gae [⟨true, 0, 0⟩, ⟨false, 0, 1⟩] 0 false 1 1).1.getD 0 0 ≠
        (calculate_gae [⟨true, 0, 0⟩, ⟨false, 0, 0⟩] 0 false 1 1).1.getD 0 0 :=
  ⟨rfl, rfl, by norm_num [calculate_gae, gaeRev, doneQ]⟩

/-- C3 (amended): episode-boundary isolation holds at the flag aligned with
step `t`'s next value — the stored prior-done flag at step `t+1`, or the
final done flags when `t` is the last step. When that flag is `true`, the
advantage at `t` is identical across any two inputs that agree on the
reward and stored value at step `t`, regardless of all rewards, values and
done flags at steps `> t` and of the bootstrap value. -/
theorem gae_done_masking_isolation (traj1 traj2 : List GaeEntry)
    (lv1 lv2 : ℚ) (ld1 ld2 : Bool) (gamma lam : ℚ) (t : Nat)
    (h1 : t < traj1.length) (h2 : t < traj2.length)
    (hr : (traj1.getD t default).reward = (traj2.getD t default).reward)
    (hv : (traj1.getD t default).value = (traj2.getD t default).value)
    (hd1 : (if t + 1 < traj1.length
        then (traj1.getD (t + 1) default).done else ld1) = true)
    (hd2 : (if t + 1 < traj2.length
        then (traj2.getD (t + 1) default).done else ld2) = true) :
    (calculate_gae traj1 lv1 ld1 gamma lam).1.getD t 0 =
      (calculate_gae traj2 lv2 ld2 gamma lam).1.getD t 0 := by
  have e1 := gaeRev_getD gamma lam (0, lv1, ld1) traj1 t h1
  have e2 := gaeRev_getD gamma lam (0, lv2, ld2) traj2 t h2
  simp only [calculate_gae]
  rw [e1, e2, hd1, hd2, hr, hv]
  simp [doneQ]

/-- Witness for the amended C3: two windows that agree only at step 0
(reward 2, value 1), both with the stored done flag at step 1 true, and
differing rewards, values and bootstrap beyond step 0: equal advantages at
step 0. -/
theorem gae_done_masking_isolation_witness :
    (0 < ([⟨false, 1, 2⟩, ⟨true, 9, 9⟩] : List GaeEntry).length)
    ∧ ((if 0 + 1 < ([⟨false, 1, 2⟩, ⟨true, 9, 9⟩] : List GaeEntry).length
        then (([⟨false, 1, 2⟩, ⟨true, 9, 9⟩] : List GaeEntry).getD (0 + 1)
          default).done else false) = true)
    ∧ (calculate_gae [⟨false, 1, 2⟩, ⟨true, 9, 9⟩] 11 false (1/2) (1/3)).1.getD 0 0 =
        (calculate_gae [⟨false, 1, 2⟩, ⟨true, 7, 5⟩] 13 true (1/2) (1/3)).1.getD 0 0 :=
  ⟨by decide, by simp,
   gae_done_masking_isolation [⟨false, 1, 2⟩, ⟨true, 9, 9⟩]
     [⟨false, 1, 2⟩, ⟨true, 7, 5⟩] 11 13 false true (1/2) (1/3) 0
     (by decide) (by decide) rfl rfl (by simp) (by simp)⟩

/-! ## Minibatch Shuffler

Lines 299–321 of `rec_mappo.py`: reshape the leading time axis into
`(recurrent_chunk_size, num_envs * num_recurrent_chunks)`, apply one random
permutation along the flattened batch axis with `jnp.take(·, ·, axis=1)`,
split that axis into `num_minibatches` equal parts, and swap the first two
axes. Arrays are rank-2 `(time, env)` lists of lists (trailing axes are
folded into the element type `α`); reshapes are row-major, as in `jnp`.
-/

/-- Rank-2 tabulation: the `n × m` nested list with entry `(i, j) = f i j`. -/
def tab2 {α : Type} (n m : Nat) (f : Nat → Nat → α) : List (List α) :=
  (List.range n).map (fun i => (List.range m).map (f i))

/-- Entry `(t, e)` of a rank-2 nested list. -/
def ent {α : Type} [Inhabited α] (x : List (List α)) (t e : Nat) : α :=
  (x.getD t []).getD e default

/-- Entry `(a, b, c)` of a rank-3 nested list. -/
def ent3 {α : Type} [Inhabited α] (y : List (List (List α))) (a b c : Nat) : α :=
  ((y.getD a []).getD b []).getD c default

/-- Row-major reshape of a rank-2 array whose rows have length `oldCols`
into shape `rows × cols` (the flattened element order is preserved, as in
`jnp.reshape` with C order). -/
def reshape2 {α : Type} [Inhabited α] (rows cols oldCols : Nat)
    (x : List (List α)) : List (List α) :=
  tab2 rows cols (fun i j => ent x ((i * cols + j) / oldCols) ((i * cols + j) % oldCols))

/-- `jnp.take(x, p, axis=1)`: gather columns of each row by the index list. -/
def takeAxis1 {α : Type} [Inhabited α] (p : List Nat) (x : List (List α)) :
    List (List α) :=
  x.map (fun r => p.map (fun i => r.getD i default))

/-- `jnp.reshape(x, (x.shape[0], M, -1))`: split each row into `M`
consecutive parts of length `B`. -/
def splitAxis1 {α : Type} [Inhabited α] (M B : Nat) (x : List (List α)) :
    List (List (List α)) :=
  x.map (fun r => tab2 M B (fun m b => r.getD (m * B + b) default))

/-- `jnp.swapaxes(y, 1, 0)` on a rank-3 array whose second axis has size
`M`. -/
def swapaxes01 {α : Type} (M : Nat) (y : List (List (List α))) :
    List (List (List α)) :=
  (List.range M).map (fun m => y.map (fun r => r.getD m []))

/-- The Minibatch Shuffler of `_update_epoch`: reshape the time axis into
`(C, K*E)` where `K = rollout_length / recurrent_chunk_size` and `E` is
`num_envs`, apply the permutation `p` along the flattened batch axis, split
it into `M` minibatches of `B` columns each, and move the minibatch axis to
the front. -/
def shufflePipeline {α : Type} [Inhabited α] (C K E M B : Nat) (p : List Nat)
    (x : List (List α)) : List (List (List α)) :=
  swapaxes01 M (splitAxis1 M B (takeAxis1 p (reshape2 C (K * E) E x)))

theorem tab2_ent {α : Type} [Inhabited α] (n m : Nat) (f : Nat → Nat → α)
    (i j : Nat) (hi : i < n) (hj : j < m) :
    ent (tab2 n m f) i j = f i j := by
  simp [ent, tab2, List.getD, List.getElem?_map, List.getElem?_range, hi, hj]

theorem tab2_length {α : Type} (n m : Nat) (f : Nat → Nat → α) :
    (tab2 n m f).length = n := by simp [tab2]

theorem getD_map_of_lt {α β : Type} (f : α → β) (l : List α) (i : Nat)
    (d : α) (d' : β) (hi : i < l.length) :
    (l.map f).getD i d' = f (l.getD i d) := by
  simp [List.getD_eq_getElem?_getD, List.getElem?_map,
    List.getElem?_eq_getElem, hi]

theorem getD_range_map {α : Type} (n : Nat) (g : Nat → α) (i : Nat) (d : α)
    (hi : i < n) :
    ((List.range n).map g).getD i d = g i := by
  simp [List.getD_eq_getElem?_getD, List.getElem?_map, List.getElem?_range, hi]

theorem shift_div_mod {E : Nat} (hE : 0 < E) (a j : Nat) :
    (a * E + j) / E = a + j / E ∧ (a * E + j) % E = j % E := by
  constructor
  · rw [Nat.add_comm, Nat.mul_comm, Nat.add_mul_div_left _ _ hE, Nat.add_comm]
  · rw [Nat.add_comm, Nat.mul_comm, Nat.add_mul_mod_self_left]

theorem mul_add_lt {m M b B : Nat} (hm : m < M) (hb : b < B) :
    m * B + b < M * B := by
  calc m * B + b < m * B + B := by omega
  _ = (m + 1) * B := by ring
  _ ≤ M * B := Nat.mul_le_mul_right B hm

theorem reshape2_length {α : Type} [Inhabited α] (rows cols oldCols : Nat)
    (x : List (List α)) : (reshape2 rows cols oldCols x).length = rows := by
  simp [reshape2, tab2]

theorem takeAxis1_length {α : Type} [Inhabited α] (p : List Nat)
    (x : List (List α)) : (takeAxis1 p x).length = x.length := by
  simp [takeAxis1]

theorem splitAxis1_length {α : Type} [Inhabited α] (M B : Nat)
    (x : List (List α)) : (splitAxis1 M B x).length = x.length := by
  simp [splitAxis1]

theorem takeAxis1_ent {α : Type} [Inhabited α] (p : List Nat)
    (x : List (List α)) (i j : Nat) (hi : i < x.length) (hj : j < p.length) :
    ent (takeAxis1 p x) i j = ent x i (p.getD j 0) := by
  unfold ent takeAxis1
  rw [getD_map_of_lt _ _ _ [] _ hi,
    getD_map_of_lt _ _ _ 0 _ hj]

theorem splitAxis1_ent3 {α : Type} [Inhabited α] (M B : Nat)
    (x : List (List α)) (c m b : Nat) (hc : c < x.length) (hm : m < M)
    (hb : b < B) :
    ent3 (splitAxis1 M B x) c m b = ent x c (m * B + b) := by
  unfold ent3 ent splitAxis1
  rw [getD_map_of_lt _ _ _ [] _ hc]
  have := tab2_ent M B (fun m b => ((x.getD c []).getD (m * B + b) default)) m b hm hb
  unfold ent at this
  exact this

theorem swapaxes01_ent3 {α : Type} [Inhabited α] (M : Nat)
    (y : List (List (List α))) (m a b : Nat) (hm : m < M) (ha : a < y.length) :
    ent3 (swapaxes01 M y) m a b = ent3 y a m b := by
  unfold ent3 swapaxes01
  rw [getD_range_map _ _ _ _ hm, getD_map_of_lt _ _ _ [] _ ha]

/-- Entry formula for the Minibatch Shuffler: minibatch `m`, in-chunk time
index `c`, batch element `b` reads original trajectory entry at time
`c * K + j / E` and environment `j % E`, where `j = p[m*B + b]` is the
permuted flattened batch index. In particular the time stride between
consecutive in-chunk indices is `K = H / C`, not `1`. -/
theorem shufflePipeline_ent3 {α : Type} [Inhabited α] (C K E M B : Nat)
    (p : List Nat) (x : List (List α)) (m c b : Nat) (hE : 0 < E)
    (hm : m < M) (hc : c < C) (hb : b < B) (hp : p.length = K * E)
    (hMB : M * B = K * E) (hj : p.getD (m * B + b) 0 < K * E) :
    ent3 (shufflePipeline C K E M B p x) m c b =
      ent x (c * K + p.getD (m * B + b) 0 / E) (p.getD (m * B + b) 0 % E) := by
  have hidx : m * B + b < K * E := hMB ▸ mul_add_lt hm hb
  unfold shufflePipeline
  rw [swapaxes01_ent3 _ _ _ _ _ hm
      (by rw [splitAxis1_length, takeAxis1_length, reshape2_length]; exact hc),
    splitAxis1_ent3 _ _ _ _ _ _
      (by rw [takeAxis1_length, reshape2_length]; exact hc) hm hb,
    takeAxis1_ent _ _ _ _ (by rw [reshape2_length]; exact hc) (hp ▸ hidx)]
  unfold reshape2
  rw [tab2_ent _ _ _ _ _ hc hj]
  have h1 : c * (K * E) + p.getD (m * B + b) 0 =
      (c * K) * E + p.getD (m * B + b) 0 := by ring
  rw [h1, (shift_div_mod hE (c * K) _).1, (shift_div_mod hE (c * K) _).2]

/-- C1 (evaluation at the failing input): with `rollout_length = 4`,
`recurrent_chunk_size C = 2` (so `K = 2` chunks), one environment, one
minibatch and the identity permutation, the arange-valued trajectory
`[[0],[1],[2],[3]]` (entry = its time index) is reshaped so that batch
element `0` receives the time sequence `[0, 2]` — strided by `K = 2` —
and not the temporally contiguous `[0, 1]` the claim asserts. -/
theorem shufflePipeline_chunks_not_contiguous :
    shufflePipeline 2 2 1 1 2 [0, 1] [[0], [1], [2], [3]] = [[[0, 1], [2, 3]]]
    ∧ ((shufflePipeline 2 2 1 1 2 [0, 1] [[0], [1], [2], [3]]).getD 0 []).map
        (fun r => r.getD 0 0) = [0, 2]
    ∧ ((shufflePipeline 2 2 1 1 2 [0, 1] [[0], [1], [2], [3]]).getD 0 []).map
        (fun r => r.getD 0 0) ≠ [0, 1] := by
  decide

/-- Undo the split and the axis swap: move the minibatch axis back inside
and concatenate the minibatches of each row. -/
def unsplitAxis1 {α : Type} (y : List (List (List α))) : List (List α) :=
  y.map List.flatten

/-- Inverse of the Minibatch Shuffler pipeline: swap the minibatch axis
back, concatenate minibatches, apply the inverse permutation along the
flattened batch axis, and reshape `(C, K*E)` back to `(C*K, E)`. -/
def unshufflePipeline {α : Type} [Inhabited α] (C K E : Nat)
    (pinv : List Nat) (mb : List (List (List α))) : List (List α) :=
  reshape2 (C * K) E (K * E) (takeAxis1 pinv (unsplitAxis1 (swapaxes01 C mb)))

theorem unsplitAxis1_length {α : Type} (y : List (List (List α))) :
    (unsplitAxis1 y).length = y.length := by simp [unsplitAxis1]

theorem swapaxes01_length {α : Type} (M : Nat) (y : List (List (List α))) :
    (swapaxes01 M y).length = M := by simp [swapaxes01]

theorem join_getD {α : Type} (B : Nat) (L : List (List α)) (d : α)
    (hlen : ∀ r ∈ L, r.length = B) (j : Nat) (hj : j < L.length * B) :
    (List.flatten L).getD j d = (L.getD (j / B) []).getD (j % B) d := by
  induction L generalizing j with
  | nil => simp at hj
  | cons r L ih =>
    have hB : 0 < B := by
      rcases Nat.eq_zero_or_pos B with h0 | h0
      · subst h0; simp at hj
      · exact h0
    have hrB : r.length = B := hlen r (by simp)
    rw [List.flatten_cons]
    by_cases h : j < B
    · rw [Nat.div_eq_of_lt h, Nat.mod_eq_of_lt h, List.getD_cons_zero,
        List.getD_eq_getElem?_getD, List.getElem?_append_left (by omega),
        ← List.getD_eq_getElem?_getD]
    · have hBj : B ≤ j := Nat.le_of_not_lt h
      have hj2 : j = 1 * B + (j - B) := by omega
      have hdiv : j / B = (j - B) / B + 1 := by
        conv_lhs => rw [hj2]
        rw [(shift_div_mod hB 1 (j - B)).1]; omega
      have hmod : j % B = (j - B) % B := by
        conv_lhs => rw [hj2]
        rw [(shift_div_mod hB 1 (j - B)).2]
      have hsub : j - B < L.length * B := by
        rw [List.length_cons, Nat.succ_mul] at hj; omega
      rw [hdiv, hmod, List.getD_cons_succ,
        List.getD_eq_getElem?_getD, List.getElem?_append_right (by omega),
        ← List.getD_eq_getElem?_getD, hrB,
        ih (fun r hr => hlen r (by simp [hr])) (j - B) hsub]

/-- Concatenating the minibatches of the swapped-back pipeline output
restores the shuffled (pre-split) batch: entry `(q, j')` of
`unsplitAxis1 (swapaxes01 C (shufflePipeline …))` is entry `(q, j')` of the
permuted reshaped batch. -/
theorem unsplit_swap_ent {α : Type} [Inhabited α] (C K E M B : Nat)
    (p : List Nat) (x : List (List α)) (q j' : Nat) (hq : q < C)
    (hj' : j' < M * B) (hB : 0 < B) :
    ent (unsplitAxis1 (swapaxes01 C (shufflePipeline C K E M B p x))) q j' =
      ent (takeAxis1 p (reshape2 C (K * E) E x)) q j' := by
  have hjB : j' / B < M := (Nat.div_lt_iff_lt_mul hB).2 (by omega)
  have hlen : (takeAxis1 p (reshape2 C (K * E) E x)).length = C := by
    rw [takeAxis1_length, reshape2_length]
  unfold ent unsplitAxis1
  rw [getD_map_of_lt _ _ _ [] _ (by rw [swapaxes01_length]; exact hq)]
  unfold shufflePipeline swapaxes01
  rw [getD_range_map _ _ _ _ hq, List.map_map]
  have hmap : (List.range M).map
      ((fun r => r.getD q []) ∘ fun m =>
        (splitAxis1 M B (takeAxis1 p (reshape2 C (K * E) E x))).map
          (fun r => r.getD m [])) =
      (List.range M).map (fun m => (List.range B).map
        (fun b => ((takeAxis1 p (reshape2 C (K * E) E x)).getD q []).getD
          (m * B + b) default)) := by
    apply List.map_congr_left
    intro m hm
    have hmM : m < M := List.mem_range.mp hm
    show ((splitAxis1 M B _).map (fun r => r.getD m [])).getD q [] = _
    rw [getD_map_of_lt _ _ _ [] _ (by rw [splitAxis1_length, hlen]; exact hq)]
    unfold splitAxis1
    rw [getD_map_of_lt _ _ _ [] _ (by rw [hlen]; exact hq)]
    unfold tab2
    rw [getD_range_map _ _ _ _ hmM]
  rw [hmap, join_getD B _ default (by
      intro r hr
      obtain ⟨m, _, rfl⟩ := List.mem_map.mp hr
      simp) j' (by simpa using hj'),
    getD_range_map _ _ _ _ hjB,
    getD_range_map _ _ _ _ (Nat.mod_lt _ hB)]
  rw [Nat.div_add_mod' j' B]

theorem tab2_eq_of_ent {α : Type} [Inhabited α] (n m : Nat)
    (f : Nat → Nat → α) (x : List (List α)) (hx : x.length = n)
    (hrow : ∀ r ∈ x, r.length = m)
    (h : ∀ i, i < n → ∀ j, j < m → f i j = ent x i j) :
    tab2 n m f = x := by
  apply List.ext_getElem
  · simp [tab2, hx]
  · intro i h1 h2
    have hin : i < n := by simpa [tab2] using h1
    have hrowlen : x[i].length = m := hrow _ (List.getElem_mem h2)
    apply List.ext_getElem
    · simp [tab2, hrowlen]
    · intro j g1 g2
      have hjm : j < m := by simpa [hrowlen] using g2
      have := h i hin j hjm
      simp only [tab2, List.getElem_map, List.getElem_range]
      rw [this]
      simp [ent, List.getD_eq_getElem?_getD, List.getElem?_eq_getElem, h2, g2]

/-- C7: the reshape–permute–split–swapaxes pipeline of the Minibatch
Shuffler is invertible: given the permutation `p` drawn in the epoch (with
inverse `pinv`), swapping the minibatch axis back, concatenating the
minibatches, applying the inverse permutation and undoing the reshape
recovers the original array — for the trajectory, and identically for the
advantage and target arrays, which go through the same `tree.map` pipeline
with the same permutation (the element type `α` is arbitrary). -/
theorem shuffle_unshuffle_roundtrip {α : Type} [Inhabited α]
    (C K E M B : Nat) (p pinv : List Nat) (x : List (List α))
    (hE : 0 < E) (hK : 0 < K) (hB : 0 < B)
    (hx : x.length = C * K) (hrow : ∀ r ∈ x, r.length = E)
    (hp : p.length = K * E) (hpinv : pinv.length = K * E)
    (hpinvval : ∀ j, j < K * E → pinv.getD j 0 < K * E)
    (hinv : ∀ j, j < K * E → p.getD (pinv.getD j 0) 0 = j)
    (hMB : M * B = K * E) :
    unshufflePipeline C K E pinv (shufflePipeline C K E M B p x) = x := by
  unfold unshufflePipeline reshape2
  apply tab2_eq_of_ent _ _ _ x hx hrow
  intro t ht e he
  have hKE : 0 < K * E := Nat.mul_pos hK hE
  have hkK : t % K < K := Nat.mod_lt _ hK
  have hq : t / K < C := by
    rw [Nat.div_lt_iff_lt_mul hK]; exact ht
  have hs : t % K * E + e < K * E := mul_add_lt hkK he
  have hdecomp : t * E + e = t / K * (K * E) + (t % K * E + e) := by
    have h1 : K * (t / K) + t % K = t := Nat.div_add_mod t K
    calc t * E + e = (K * (t / K) + t % K) * E + e := by rw [h1]
    _ = t / K * (K * E) + (t % K * E + e) := by ring
  have hdiv : (t * E + e) / (K * E) = t / K := by
    rw [hdecomp, (shift_div_mod hKE (t / K) _).1, Nat.div_eq_of_lt hs,
      Nat.add_zero]
  have hmod : (t * E + e) % (K * E) = t % K * E + e := by
    rw [hdecomp, (shift_div_mod hKE (t / K) _).2, Nat.mod_eq_of_lt hs]
  show ent _ ((t * E + e) / (K * E)) ((t * E + e) % (K * E)) = ent x t e
  rw [hdiv, hmod]
  rw [takeAxis1_ent _ _ _ _
    (by rw [unsplitAxis1_length, swapaxes01_length]; exact hq)
    (by rw [hpinv]; exact hs)]
  have hj' : pinv.getD (t % K * E + e) 0 < M * B := by
    rw [hMB]; exact hpinvval _ hs
  rw [unsplit_swap_ent C K E M B p x _ _ hq hj' hB]
  rw [takeAxis1_ent _ _ _ _ (by rw [reshape2_length]; exact hq)
    (by rw [hp]; exact hpinvval _ hs)]
  rw [hinv _ hs]
  unfold reshape2
  rw [tab2_ent _ _ _ _ _ hq hs]
  have h2 : t / K * (K * E) + (t % K * E + e) = (t / K * K + t % K) * E + e := by
    ring
  rw [h2]
  have hdiv2 : ((t / K * K + t % K) * E + e) / E = t / K * K + t % K := by
    rw [(shift_div_mod hE _ _).1, Nat.div_eq_of_lt he, Nat.add_zero]
  have hmod2 : ((t / K * K + t % K) * E + e) % E = e := by
    rw [(shift_div_mod hE _ _).2, Nat.mod_eq_of_lt he]
  rw [hdiv2, hmod2, Nat.div_add_mod' t K]

/-- Witness for C7 at the spec's test instance: `rollout_length = 4`,
`chunk_size = 2` (`K = 2` chunks), one environment, one minibatch, an
arange-valued trajectory, and the nontrivial permutation `[1, 0]` (its own
inverse): the round trip is the identity. -/
theorem shuffle_unshuffle_roundtrip_witness :
    ([[0], [1], [2], [3]] : List (List ℕ)).length = 2 * 2
    ∧ unshufflePipeline 2 2 1 [1, 0]
        (shufflePipeline 2 2 1 1 2 [1, 0] [[0], [1], [2], [3]]) =
      ([[0], [1], [2], [3]] : List (List ℕ)) :=
  ⟨rfl,
   shuffle_unshuffle_roundtrip 2 2 1 1 2 [1, 0] [1, 0] [[0], [1], [2], [3]]
     (by decide) (by decide) (by decide) (by decide) (by decide) (by decide)
     (by decide) (by decide) (by decide) (by decide)⟩

/-! ## Configuration validation (`run_experiment`, lines 545–555)

`config.system.recurrent_chunk_size is None` silently becomes
`rollout_length`; otherwise two `assert`s check that `rollout_length` is
divisible by `recurrent_chunk_size` and `num_envs` by `num_minibatches`.
-/

/-- The fields of `config.system` consumed by the validation prefix. -/
structure SystemConfig where
  recurrent_chunk_size : Option Nat
  rollout_length : Nat
  num_minibatches : Nat
  deriving DecidableEq, Repr

/-- The fields of `config.arch` consumed by the validation prefix. -/
structure ArchConfig where
  num_envs : Nat
  deriving DecidableEq, Repr

/-- The configuration-validation prefix of `run_experiment`: returns the
effective `recurrent_chunk_size`, or the message of the first failing
`assert`. It runs before any environment, network or training computation
is constructed. -/
def validate_config (sys : SystemConfig) (arch : ArchConfig) :
    Except String Nat :=
  match sys.recurrent_chunk_size with
  | none => .ok sys.rollout_length
  | some c =>
    if sys.rollout_length % c ≠ 0 then
      .error "Rollout length must be divisible by recurrent chunk size."
    else if arch.num_envs % sys.num_minibatches ≠ 0 then
      .error "Number of envs must be divisibile by number of minibatches."
    else .ok c

/-- Counterexample to C8 as stated: with `recurrent_chunk_size` unset
(`None`), `num_envs = 3` and `num_minibatches = 2`, the divisibility of
`num_envs` by `num_minibatches` fails, yet `run_experiment` raises no
configuration error — validation succeeds with chunk size set to
`rollout_length`. -/
theorem validate_config_counterexample :
    ({ num_envs := 3 } : ArchConfig).num_envs %
      ({ recurrent_chunk_size := none, rollout_length := 4,
         num_minibatches := 2 } : SystemConfig).num_minibatches ≠ 0
    ∧ validate_config
        { recurrent_chunk_size := none, rollout_length := 4,
          num_minibatches := 2 } { num_envs := 3 } = .ok 4 :=
  ⟨by decide, rfl⟩

/-- C8 (amended): when `recurrent_chunk_size` is explicitly provided, any
configuration in which `rollout_length` is not divisible by it, or
`num_envs` is not divisible by `num_minibatches`, raises a configuration
error before any training computation starts; when it is `None` both
checks are skipped. In particular `rollout_length = 5` with
`recurrent_chunk_size = 2` raises. -/
theorem validate_config_fail_fast (sys : SystemConfig) (arch : ArchConfig)
    (c : Nat) (hc : sys.recurrent_chunk_size = some c)
    (hbad : sys.rollout_length % c ≠ 0 ∨
      arch.num_envs % sys.num_minibatches ≠ 0) :
    ∃ msg, validate_config sys arch = .error msg := by
  unfold validate_config
  rw [hc]
  rcases hbad with h | h
  · exact ⟨"Rollout length must be divisible by recurrent chunk size.",
      by simp [h]⟩
  · by_cases h1 : sys.rollout_length % c ≠ 0
    · exact ⟨"Rollout length must be divisible by recurrent chunk size.",
        by simp [h1]⟩
    · exact ⟨"Number of envs must be divisibile by number of minibatches.",
        by simp [h1, h]⟩

/-- Witness for C8 at the spec's test case: `rollout_length = 5`,
`recurrent_chunk_size = 2` raises a configuration error. -/
theorem validate_config_fail_fast_witness :
    ({ recurrent_chunk_size := some 2, rollout_length := 5,
       num_minibatches := 1 } : SystemConfig).recurrent_chunk_size = some 2
    ∧ ((5 % 2 ≠ 0 ∨ (4 : Nat) % 1 ≠ 0))
    ∧ ∃ msg, validate_config
        { recurrent_chunk_size := some 2, rollout_length := 5,
          num_minibatches := 1 } { num_envs := 4 } = .error msg :=
  ⟨rfl, by decide,
   validate_config_fail_fast _ _ 2 rfl (by decide)⟩

/-- C10: when `config.system.recurrent_chunk_size` is `None`,
`run_experiment` silently sets it to `rollout_length` and executes neither
divisibility assertion — validation succeeds for every `num_envs` and
`num_minibatches`, so the `num_envs % num_minibatches` requirement is only
checked when `recurrent_chunk_size` was explicitly provided. -/
theorem validate_config_none_skips_checks (sys : SystemConfig)
    (arch : ArchConfig) (h : sys.recurrent_chunk_size = none) :
    validate_config sys arch = .ok sys.rollout_length := by
  unfold validate_config
  rw [h]

/-- Witness for C10: chunk size unset, `rollout_length = 5`,
`num_minibatches = 2`, `num_envs = 3` (both divisibility constraints
violated): validation still succeeds with chunk size `5`. -/
theorem validate_config_none_skips_checks_witness :
    ({ recurrent_chunk_size := none, rollout_length := 5,
       num_minibatches := 2 } : SystemConfig).recurrent_chunk_size = none
    ∧ validate_config
        { recurrent_chunk_size := none, rollout_length := 5,
          num_minibatches := 2 } { num_envs := 3 } = .ok
        ({ recurrent_chunk_size := none, rollout_length := 5,
           num_minibatches := 2 } : SystemConfig).rollout_length :=
  ⟨rfl, validate_config_none_skips_checks _ { num_envs := 3 } rfl⟩

/-! ## Rollout Engine (`_env_step`, lines 92–144)

The environment, networks, random-key splitting, action sampling and the
agent-broadcast of the episode-end flag are external collaborators,
modelled as abstract functions; the singleton leading sequence axis added
before and squeezed after each network call is shape bookkeeping with no
data content and is not modelled. -/

/-- `mava.systems.ppo.types.Params`: one parameter container per network. -/
structure Params (A C : Type) where
  actor_params : A
  critic_params : C
  deriving DecidableEq, Repr

/-- `mava.systems.ppo.types.OptStates`: one optimiser state per network. -/
structure OptStates (A C : Type) where
  actor_opt_state : A
  critic_opt_state : C
  deriving DecidableEq, Repr

/-- `mava.systems.ppo.types.HiddenStates`: the pair of recurrent carries. -/
structure HiddenStates (Hs : Type) where
  policy_hidden_state : Hs
  critic_hidden_state : Hs
  deriving DecidableEq, Repr

/-- The interface of an environment timestep consumed by `_env_step`:
observation, reward, the episode-termination flag `timestep.last()`, and
the two metrics mappings in `timestep.extras`. -/
structure TimeStep (Ob Rew Dn Ext : Type) where
  observation : Ob
  reward : Rew
  lastFlag : Dn
  episode_metrics : Ext
  env_metrics : Ext
  deriving DecidableEq, Repr

/-- `mava.systems.ppo.types.RNNPPOTransition`, as constructed on lines
131–139: prior-done flag, action, value, reward, log-probability,
pre-step observation and the hidden-state snapshot at step start. -/
structure RNNPPOTransition (Dn Act Val Rew Lp Ob Hs : Type) where
  done : Dn
  action : Act
  value : Val
  reward : Rew
  log_prob : Lp
  obs : Ob
  hstates : HiddenStates Hs
  deriving DecidableEq, Repr

/-- `mava.systems.ppo.types.RNNLearnerState`. -/
structure RNNLearnerState (P Os K S Ob Rew Dn Ext Hs : Type) where
  params : P
  opt_states : Os
  key : K
  env_state : S
  timestep : TimeStep Ob Rew Dn Ext
  dones : Dn
  hstates : HiddenStates Hs
  deriving DecidableEq, Repr

/-- The external collaborators invoked by one environment step:
`jax.random.split`, the recurrent actor and critic applies, distribution
sampling and log-probability, the vectorised environment step, the
repeat-over-agents broadcast of `timestep.last()`, and the metrics-dict
merge `|`. -/
structure EnvStepFns (AP CP K S Ob Rew Dn Ext Act Val Lp Dist Hs : Type) where
  split : K → K × K
  actor_apply : AP → Hs → Ob × Dn → Hs × Dist
  critic_apply : CP → Hs → Ob × Dn → Hs × Val
  sample : Dist → K → Act
  log_prob : Dist → Act → Lp
  env_step : S → Act → S × TimeStep Ob Rew Dn Ext
  broadcast : Dn → Dn
  merge : Ext → Ext → Ext

/-- `_env_step` (lines 92–144): split the key, run actor and critic on the
pre-step observation and prior-done flag with the current hidden states,
sample an action and its log-probability, step the environment, broadcast
the new episode-end flag over agents, record a `RNNPPOTransition` from
pre-step data, and advance the `RNNLearnerState` with post-step data. -/
def _env_step {AP CP K S Ob Rew Dn Ext Act Val Lp Dist Hs : Type}
    (F : EnvStepFns AP CP K S Ob Rew Dn Ext Act Val Lp Dist Hs)
    (ls : RNNLearnerState (Params AP CP) Os K S Ob Rew Dn Ext Hs) :
    RNNLearnerState (Params AP CP) Os K S Ob Rew Dn Ext Hs ×
      RNNPPOTransition Dn Act Val Rew Lp Ob Hs × Ext :=
  let ks := F.split ls.key
  let key := ks.1
  let policy_key := ks.2
  let ac_in := (ls.timestep.observation, ls.dones)
  let pol := F.actor_apply ls.params.actor_params
    ls.hstates.policy_hidden_state ac_in
  let cri := F.critic_apply ls.params.critic_params
    ls.hstates.critic_hidden_state ac_in
  let action := F.sample pol.2 policy_key
  let log_prob := F.log_prob pol.2 action
  let st := F.env_step ls.env_state action
  let done := F.broadcast st.2.lastFlag
  let hstates : HiddenStates Hs := ⟨pol.1, cri.1⟩
  let transition : RNNPPOTransition Dn Act Val Rew Lp Ob Hs :=
    ⟨ls.dones, action, cri.2, st.2.reward, log_prob,
     ls.timestep.observation, ls.hstates⟩
  let learner_state : RNNLearnerState (Params AP CP) Os K S Ob Rew Dn Ext Hs :=
    ⟨ls.params, ls.opt_states, key, st.1, st.2, done, hstates⟩
  (learner_state, transition, F.merge st.2.episode_metrics st.2.env_metrics)

/-- C9: in every environment step, the recorded transition stores the
pre-step hidden-state snapshot, the prior done flag, the pre-step
observation and the value computed from the pre-step critic state, while
the returned learner state carries the post-step hidden states, the new
environment state, the new timestep and the broadcast new done flags
(params and optimiser states pass through unchanged). -/
theorem env_step_pre_post {AP CP Os K S Ob Rew Dn Ext Act Val Lp Dist Hs : Type}
    (F : EnvStepFns AP CP K S Ob Rew Dn Ext Act Val Lp Dist Hs)
    (ls : RNNLearnerState (Params AP CP) Os K S Ob Rew Dn Ext Hs) :
    ((_env_step F ls).2.1.hstates = ls.hstates
      ∧ (_env_step F ls).2.1.done = ls.dones
      ∧ (_env_step F ls).2.1.obs = ls.timestep.observation
      ∧ (_env_step F ls).2.1.value =
          (F.critic_apply ls.params.critic_params
            ls.hstates.critic_hidden_state
            (ls.timestep.observation, ls.dones)).2)
    ∧ ((_env_step F ls).1.hstates =
        ⟨(F.actor_apply ls.params.actor_params ls.hstates.policy_hidden_state
            (ls.timestep.observation, ls.dones)).1,
          (F.critic_apply ls.params.critic_params
            ls.hstates.critic_hidden_state
            (ls.timestep.observation, ls.dones)).1⟩
      ∧ (_env_step F ls).1.env_state =
          (F.env_step ls.env_state
            (F.sample (F.actor_apply ls.params.actor_params
                ls.hstates.policy_hidden_state
                (ls.timestep.observation, ls.dones)).2
              (F.split ls.key).2)).1
      ∧ (_env_step F ls).1.timestep =
          (F.env_step ls.env_state
            (F.sample (F.actor_apply ls.params.actor_params
                ls.hstates.policy_hidden_state
                (ls.timestep.observation, ls.dones)).2
              (F.split ls.key).2)).2
      ∧ (_env_step F ls).1.dones =
          F.broadcast (F.env_step ls.env_state
            (F.sample (F.actor_apply ls.params.actor_params
                ls.hstates.policy_hidden_state
                (ls.timestep.observation, ls.dones)).2
              (F.split ls.key).2)).2.lastFlag
      ∧ (_env_step F ls).1.key = (F.split ls.key).1
      ∧ (_env_step F ls).1.params = ls.params
      ∧ (_env_step F ls).1.opt_states = ls.opt_states) :=
  ⟨⟨rfl, rfl, rfl, rfl⟩, rfl, rfl, rfl, rfl, rfl, rfl, rfl⟩

/-! ## Update Engine losses (`_actor_loss_fn` lines 176–209,
`_critic_loss_fn` lines 211–232)

The networks re-evaluated during training are abstract; `jnp.exp` and the
square root inside `jnp.std` are opaque real functions shared by statement
and model, passed as parameters `rexp` and `sqrtq`. A minibatch is a
`RNNPPOTransition` whose fields are flat lists (all array axes folded into
one elementwise axis, over which `.mean()` averages) and whose
hidden-state snapshots form a list along the chunk-time axis, indexed at
`0` by the loss functions. -/

/-- `jnp.std(xs)` (ddof = 0): square root of the mean squared deviation. -/
def stdQ (sqrtq : ℚ → ℚ) (xs : List ℚ) : ℚ :=
  sqrtq (meanQ (xs.map (fun v => (v - meanQ xs) ^ 2)))

/-- The recurrent actor network interface used by the loss: `apply`
returns the new carry and the action distribution; the distribution is
queried for log-probabilities of stored actions and for a seeded entropy
array. -/
structure ActorNetwork (AP Hs Ob Act Dist Key : Type) where
  apply : AP → Hs → List Ob × List Bool → Hs × Dist
  log_prob : Dist → List Act → List ℚ
  entropy : Dist → Key → List ℚ

/-- The recurrent critic network interface used by the loss. -/
structure CriticNetwork (CP Hs Ob : Type) where
  apply : CP → Hs → List Ob × List Bool → Hs × List ℚ

/-- `_actor_loss_fn`: re-run the actor from the chunk's first stored
policy hidden state on the whole chunk, form `ratio = exp(new - old)`
log-probabilities, normalise the advantages at minibatch level as
`(gae - mean) / (std + 1e-8)`, take the elementwise minimum of the
unclipped and clipped surrogates, negate, average, and subtract
`ent_coef` times the mean seeded entropy. Returns
`(total_loss, actor_loss, entropy)`. -/
def _actor_loss_fn {AP Hs Ob Act Dist Key Rw : Type} [Inhabited Hs]
    (net : ActorNetwork AP Hs Ob Act Dist Key) (rexp sqrtq : ℚ → ℚ)
    (clip_eps ent_coef : ℚ) (actor_params : AP)
    (traj_batch : RNNPPOTransition (List Bool) (List Act) (List ℚ) Rw
      (List ℚ) (List Ob) (List Hs))
    (gae : List ℚ) (key : Key) : ℚ × ℚ × ℚ :=
  let actor_policy := (net.apply actor_params
    (traj_batch.hstates.policy_hidden_state.getD 0 default)
    (traj_batch.obs, traj_batch.done)).2
  let log_prob := net.log_prob actor_policy traj_batch.action
  let ratio := List.zipWith (fun lp olp => rexp (lp - olp))
    log_prob traj_batch.log_prob
  let gaeN := gae.map (fun g =>
    (g - meanQ gae) / (stdQ sqrtq gae + 1 / 100000000))
  let loss_actor1 := List.zipWith (· * ·) ratio gaeN
  let loss_actor2 := List.zipWith
    (fun r g => clipQ (1 - clip_eps) (1 + clip_eps) r * g) ratio gaeN
  let loss_actor :=
    meanQ ((List.zipWith min loss_actor1 loss_actor2).map (fun v => -v))
  let entropy := meanQ (net.entropy actor_policy key)
  (loss_actor - ent_coef * entropy, loss_actor, entropy)

/-- `_critic_loss_fn`: re-run the critic from the chunk's first stored
critic hidden state, clip the new value to within `clip_eps` of the
stored old value, take the elementwise maximum of the squared errors of
the unclipped and the clipped value against the targets, average, halve,
and scale the total by `vf_coef`. Returns `(total_loss, value_loss)`. -/
def _critic_loss_fn {CP Hs Ob Act Rw : Type} [Inhabited Hs]
    (net : CriticNetwork CP Hs Ob) (clip_eps vf_coef : ℚ)
    (critic_params : CP)
    (traj_batch : RNNPPOTransition (List Bool) Act (List ℚ) Rw
      (List ℚ) (List Ob) (List Hs))
    (targets : List ℚ) : ℚ × ℚ :=
  let value := (net.apply critic_params
    (traj_batch.hstates.critic_hidden_state.getD 0 default)
    (traj_batch.obs, traj_batch.done)).2
  let value_pred_clipped := List.zipWith
    (fun old v => old + clipQ (-clip_eps) clip_eps (v - old))
    traj_batch.value value
  let value_losses := List.zipWith (fun v tg => (v - tg) ^ 2) value targets
  let value_losses_clipped := List.zipWith (fun v tg => (v - tg) ^ 2)
    value_pred_clipped targets
  let value_loss :=
    (1 / 2) * meanQ (List.zipWith max value_losses value_losses_clipped)
  (vf_coef * value_loss, value_loss)

theorem zipWith_getD {α β γ : Type} (f : α → β → γ) (as : List α)
    (bs : List β) (i : Nat) (da : α) (db : β) (dc : γ)
    (ha : i < as.length) (hb : i < bs.length) :
    (List.zipWith f as bs).getD i dc = f (as.getD i da) (bs.getD i db) := by
  induction as generalizing bs i with
  | nil => simp at ha
  | cons a as ih =>
    cases bs with
    | nil => simp at hb
    | cons b bs =>
      cases i with
      | zero => simp
      | succ s =>
        simp only [List.zipWith_cons_cons, List.getD_cons_succ]
        exact ih bs s (by simpa using ha) (by simpa using hb)

theorem list_eq_range_map {γ : Type} (l : List γ) (n : Nat) (g : Nat → γ)
    (d : γ) (hlen : l.length = n) (h : ∀ i, i < n → l.getD i d = g i) :
    l = (List.range n).map g := by
  apply List.ext_getElem
  · simp [hlen]
  · intro i h1 h2
    have hin : i < n := hlen ▸ h1
    have := h i hin
    simp only [List.getElem_map, List.getElem_range]
    rw [← this]
    simp [List.getD_eq_getElem?_getD, List.getElem?_eq_getElem, h1]

theorem sum_map_neg (l : List ℚ) : (l.map (fun v => -v)).sum = -l.sum := by
  induction l with
  | nil => simp
  | cons a l ih => simp [ih]; ring

theorem meanQ_map_neg (l : List ℚ) : meanQ (l.map (fun v => -v)) = -meanQ l := by
  unfold meanQ
  rw [sum_map_neg, List.length_map, neg_div]

/-- C4: the actor loss equals the pointwise clipped-surrogate formula: the
action distribution is re-evaluated from the chunk's stored first-step
policy hidden state (index 0 of the snapshots); per element `i` the ratio
is `exp(new_log_prob - old_log_prob)`, the advantage is normalised at
minibatch level to `(gae_i - mean) / (std + 1e-8)`, the surrogate is
`min(ratio*A, clip(ratio, 1-eps, 1+eps)*A)`; the loss is the negated mean
of the surrogates minus `ent_coef` times the mean entropy of the
re-evaluated distribution. -/
theorem actor_loss_clipped_surrogate
    {AP Hs Ob Act Dist Key Rw : Type} [Inhabited Hs]
    (net : ActorNetwork AP Hs Ob Act Dist Key) (rexp sqrtq : ℚ → ℚ)
    (clip_eps ent_coef : ℚ) (actor_params : AP)
    (traj_batch : RNNPPOTransition (List Bool) (List Act) (List ℚ) Rw
      (List ℚ) (List Ob) (List Hs))
    (gae : List ℚ) (key : Key) (n : Nat)
    (hlp : (net.log_prob (net.apply actor_params
        (traj_batch.hstates.policy_hidden_state.getD 0 default)
        (traj_batch.obs, traj_batch.done)).2 traj_batch.action).length = n)
    (holp : traj_batch.log_prob.length = n)
    (hgae : gae.length = n) :
    (_actor_loss_fn net rexp sqrtq clip_eps ent_coef actor_params
        traj_batch gae key).1 =
      -meanQ ((List.range n).map (fun i =>
        min
          (rexp ((net.log_prob (net.apply actor_params
              (traj_batch.hstates.policy_hidden_state.getD 0 default)
              (traj_batch.obs, traj_batch.done)).2
                traj_batch.action).getD i 0
            - traj_batch.log_prob.getD i 0)
            * ((gae.getD i 0 - meanQ gae) / (stdQ sqrtq gae + 1 / 100000000)))
          (clipQ (1 - clip_eps) (1 + clip_eps)
            (rexp ((net.log_prob (net.apply actor_params
                (traj_batch.hstates.policy_hidden_state.getD 0 default)
                (traj_batch.obs, traj_batch.done)).2
                  traj_batch.action).getD i 0
              - traj_batch.log_prob.getD i 0))
            * ((gae.getD i 0 - meanQ gae) / (stdQ sqrtq gae + 1 / 100000000)))))
      - ent_coef * meanQ (net.entropy (net.apply actor_params
          (traj_batch.hstates.policy_hidden_state.getD 0 default)
          (traj_batch.obs, traj_batch.done)).2 key) := by
  simp only [_actor_loss_fn]
  rw [meanQ_map_neg]
  set P := (net.apply actor_params
    (traj_batch.hstates.policy_hidden_state.getD 0 default)
    (traj_batch.obs, traj_batch.done)).2 with hP
  set L := net.log_prob P traj_batch.action with hLdef
  set O := traj_batch.log_prob with hOdef
  set G := gae.map (fun g =>
    (g - meanQ gae) / (stdQ sqrtq gae + 1 / 100000000)) with hGdef
  set R := List.zipWith (fun lp olp => rexp (lp - olp)) L O with hRdef
  have hGlen : G.length = n := by rw [hGdef, List.length_map, hgae]
  have hRlen : R.length = n := by
    rw [hRdef, List.length_zipWith, hlp, holp]; omega
  have h1 : ∀ i, i < n → i < (List.zipWith (· * ·) R G).length := by
    intro i hi; rw [List.length_zipWith, hRlen, hGlen]; omega
  have h2 : ∀ i, i < n → i <
      (List.zipWith (fun r g => clipQ (1 - clip_eps) (1 + clip_eps) r * g)
        R G).length := by
    intro i hi; rw [List.length_zipWith, hRlen, hGlen]; omega
  have hbig : List.zipWith min (List.zipWith (· * ·) R G)
      (List.zipWith (fun r g => clipQ (1 - clip_eps) (1 + clip_eps) r * g)
        R G) =
      (List.range n).map (fun i =>
        min (R.getD i 0 * G.getD i 0)
          (clipQ (1 - clip_eps) (1 + clip_eps) (R.getD i 0) *
            G.getD i 0)) := by
    apply list_eq_range_map _ n _ 0
    · simp only [List.length_zipWith, hRlen, hGlen, hlp, holp]; omega
    · intro i hi
      rw [zipWith_getD min _ _ _ 0 0 0 (h1 i hi) (h2 i hi),
        zipWith_getD _ R G _ 0 0 0 (by rw [hRlen]; exact hi)
          (by rw [hGlen]; exact hi),
        zipWith_getD _ R G _ 0 0 0 (by rw [hRlen]; exact hi)
          (by rw [hGlen]; exact hi)]
  rw [hbig]
  have hpt : ∀ i ∈ List.range n,
      min (R.getD i 0 * G.getD i 0)
        (clipQ (1 - clip_eps) (1 + clip_eps) (R.getD i 0) * G.getD i 0) =
      min (rexp (L.getD i 0 - O.getD i 0) *
          ((gae.getD i 0 - meanQ gae) / (stdQ sqrtq gae + 1 / 100000000)))
        (clipQ (1 - clip_eps) (1 + clip_eps)
          (rexp (L.getD i 0 - O.getD i 0)) *
          ((gae.getD i 0 - meanQ gae) /
            (stdQ sqrtq gae + 1 / 100000000))) := by
    intro i hi
    have hin : i < n := List.mem_range.mp hi
    rw [hRdef, zipWith_getD _ L O _ 0 0 0 (by rw [hlp]; exact hin)
        (by rw [holp]; exact hin),
      hGdef, getD_map_of_lt _ _ _ 0 _ (by rw [hgae]; exact hin)]
  rw [List.map_congr_left hpt]

/-- C5: the critic loss equals the pointwise clipped-value formula: the
value is re-evaluated from the chunk's stored first-step critic hidden
state; per element `i` the clipped value is
`old_i + clip(new_i - old_i, -eps, +eps)`; the loss is `vf_coef` times
half the mean of the elementwise maxima of the squared errors of the
unclipped and the clipped value against the target. -/
theorem critic_loss_clipped_value
    {CP Hs Ob Act Rw : Type} [Inhabited Hs]
    (net : CriticNetwork CP Hs Ob) (clip_eps vf_coef : ℚ)
    (critic_params : CP)
    (traj_batch : RNNPPOTransition (List Bool) Act (List ℚ) Rw
      (List ℚ) (List Ob) (List Hs))
    (targets : List ℚ) (n : Nat)
    (hval : (net.apply critic_params
        (traj_batch.hstates.critic_hidden_state.getD 0 default)
        (traj_batch.obs, traj_batch.done)).2.length = n)
    (holdv : traj_batch.value.length = n)
    (htg : targets.length = n) :
    (_critic_loss_fn net clip_eps vf_coef critic_params traj_batch
        targets).1 =
      vf_coef * ((1 / 2) * meanQ ((List.range n).map (fun i =>
        max
          (((net.apply critic_params
              (traj_batch.hstates.critic_hidden_state.getD 0 default)
              (traj_batch.obs, traj_batch.done)).2.getD i 0 -
            targets.getD i 0) ^ 2)
          ((traj_batch.value.getD i 0 +
            clipQ (-clip_eps) clip_eps
              ((net.apply critic_params
                (traj_batch.hstates.critic_hidden_state.getD 0 default)
                (traj_batch.obs, traj_batch.done)).2.getD i 0 -
                traj_batch.value.getD i 0) -
            targets.getD i 0) ^ 2)))) := by
  simp only [_critic_loss_fn]
  set V := (net.apply critic_params
    (traj_batch.hstates.critic_hidden_state.getD 0 default)
    (traj_batch.obs, traj_batch.done)).2 with hV
  set OldV := traj_batch.value with hOldV
  set CL := List.zipWith
    (fun old v => old + clipQ (-clip_eps) clip_eps (v - old)) OldV V
    with hCLdef
  have hCLlen : CL.length = n := by
    rw [hCLdef, List.length_zipWith, holdv, hval]; omega
  have hbig : List.zipWith max
      (List.zipWith (fun v tg => (v - tg) ^ 2) V targets)
      (List.zipWith (fun v tg => (v - tg) ^ 2) CL targets) =
      (List.range n).map (fun i =>
        max ((V.getD i 0 - targets.getD i 0) ^ 2)
          ((OldV.getD i 0 +
            clipQ (-clip_eps) clip_eps (V.getD i 0 - OldV.getD i 0) -
            targets.getD i 0) ^ 2)) := by
    apply list_eq_range_map _ n _ 0
    · simp only [List.length_zipWith, hval, htg, hCLlen, holdv]; omega
    · intro i hi
      rw [zipWith_getD max _ _ _ 0 0 0
          (by rw [List.length_zipWith, hval, htg]; omega)
          (by rw [List.length_zipWith, hCLlen, htg]; omega),
        zipWith_getD _ V targets _ 0 0 0 (by rw [hval]; exact hi)
          (by rw [htg]; exact hi),
        zipWith_getD _ CL targets _ 0 0 0 (by rw [hCLlen]; exact hi)
          (by rw [htg]; exact hi),
        hCLdef, zipWith_getD _ OldV V _ 0 0 0 (by rw [holdv]; exact hi)
          (by rw [hval]; exact hi)]
  rw [hbig]

/-- A small concrete actor network for exercising the loss: `log_prob`
returns the queried action list, `entropy` a fixed array. -/
def actorNetW : ActorNetwork ℚ ℚ ℚ ℚ ℚ ℚ :=
  ⟨fun _ _ _ => (0, 0), fun _ acts => acts, fun _ _ => [1, 2]⟩

/-- A small concrete critic network: the value estimate is the observation
list. -/
def criticNetW : CriticNetwork ℚ ℚ ℚ :=
  ⟨fun _ _ od => (0, od.1)⟩

/-- A concrete length-2 minibatch transition. -/
def trajW : RNNPPOTransition (List Bool) (List ℚ) (List ℚ) ℚ (List ℚ)
    (List ℚ) (List ℚ) :=
  ⟨[false, false], [3, 4], [10, 20], 0, [1, 1], [5, 6], ⟨[7], [8]⟩⟩

/-- Witness for C4 at a concrete length-2 minibatch. -/
theorem actor_loss_clipped_surrogate_witness :
    (actorNetW.log_prob (actorNetW.apply 0
        (trajW.hstates.policy_hidden_state.getD 0 default)
        (trajW.obs, trajW.done)).2 trajW.action).length = 2
    ∧ trajW.log_prob.length = 2
    ∧ ([1, 3] : List ℚ).length = 2
    ∧ (_actor_loss_fn actorNetW id id (1/10) (1/2) 0 trajW [1, 3] 0).1 =
      -meanQ ((List.range 2).map (fun i =>
        min
          (id ((actorNetW.log_prob (actorNetW.apply 0
              (trajW.hstates.policy_hidden_state.getD 0 default)
              (trajW.obs, trajW.done)).2 trajW.action).getD i 0
            - trajW.log_prob.getD i 0)
            * ((([1, 3] : List ℚ).getD i 0 - meanQ [1, 3]) /
              (stdQ id [1, 3] + 1 / 100000000)))
          (clipQ (1 - 1/10) (1 + 1/10)
            (id ((actorNetW.log_prob (actorNetW.apply 0
                (trajW.hstates.policy_hidden_state.getD 0 default)
                (trajW.obs, trajW.done)).2 trajW.action).getD i 0
              - trajW.log_prob.getD i 0))
            * ((([1, 3] : List ℚ).getD i 0 - meanQ [1, 3]) /
              (stdQ id [1, 3] + 1 / 100000000)))))
      - (1/2) * meanQ (actorNetW.entropy (actorNetW.apply 0
          (trajW.hstates.policy_hidden_state.getD 0 default)
          (trajW.obs, trajW.done)).2 0) :=
  ⟨rfl, rfl, rfl,
   actor_loss_clipped_surrogate actorNetW id id (1/10) (1/2) 0 trajW
     [1, 3] 0 2 rfl rfl rfl⟩

/-- Witness for C5 at a concrete length-2 minibatch. -/
theorem critic_loss_clipped_value_witness :
    (criticNetW.apply 0
        (trajW.hstates.critic_hidden_state.getD 0 default)
        (trajW.obs, trajW.done)).2.length = 2
    ∧ trajW.value.length = 2
    ∧ ([2, 3] : List ℚ).length = 2
    ∧ (_critic_loss_fn criticNetW (1/10) (3/4) 0 trajW [2, 3]).1 =
      (3/4) * ((1 / 2) * meanQ ((List.range 2).map (fun i =>
        max
          (((criticNetW.apply 0
              (trajW.hstates.critic_hidden_state.getD 0 default)
              (trajW.obs, trajW.done)).2.getD i 0 -
            ([2, 3] : List ℚ).getD i 0) ^ 2)
          ((trajW.value.getD i 0 +
            clipQ (-(1/10)) (1/10)
              ((criticNetW.apply 0
                (trajW.hstates.critic_hidden_state.getD 0 default)
                (trajW.obs, trajW.done)).2.getD i 0 -
                trajW.value.getD i 0) -
            ([2, 3] : List ℚ).getD i 0) ^ 2)))) :=
  ⟨rfl, rfl, rfl,
   critic_loss_clipped_value criticNetW (1/10) (3/4) 0 trajW [2, 3] 2
     rfl rfl rfl⟩

/-! ## Gradient synchronisation (`_update_minibatch`, lines 250–293)

Replicas are indexed `(device, batch)`; a per-replica quantity is a nested
list with the device axis outside. `jax.lax.pmean(·, axis_name="batch")`
averages within a device; `jax.lax.pmean(·, axis_name="device")` averages
the same batch slot across devices. The optimiser transform
(`actor_update_fn` / `critic_update_fn`) is an abstract function from a
gradient and an optimiser state to an update and a new state;
`optax.apply_updates` adds the update to the parameters. -/

/-- `jax.lax.pmean(g, axis_name="batch")`: every replica of a device
receives the mean over that device's batch axis. -/
def pmean_batch (gs : List (List ℚ)) : List (List ℚ) :=
  gs.map (fun dev => dev.map (fun _ => meanQ dev))

/-- `jax.lax.pmean(g, axis_name="device")`: every batch slot receives the
mean of that slot across all devices. -/
def pmean_device (gs : List (List ℚ)) : List (List ℚ) :=
  gs.map (fun dev => (List.range dev.length).map
    (fun b => meanQ (gs.map (fun dev' => dev'.getD b 0))))

/-- The two-stage gradient synchronisation of `_update_minibatch`: pmean
over the batch axis first, then over the device axis. -/
def sync_grads (gs : List (List ℚ)) : List (List ℚ) :=
  pmean_device (pmean_batch gs)

/-- The post-synchronisation segment of `_update_minibatch` for one
replica: run each optimiser transform on the synchronised gradient and its
optimiser state, and apply the resulting updates additively
(`optax.apply_updates`). -/
def update_minibatch_replica {SA SC : Type}
    (actor_update_fn : ℚ → SA → ℚ × SA)
    (critic_update_fn : ℚ → SC → ℚ × SC)
    (params : Params ℚ ℚ) (opt_states : OptStates SA SC)
    (actor_grad critic_grad : ℚ) : Params ℚ ℚ × OptStates SA SC :=
  let au := actor_update_fn actor_grad opt_states.actor_opt_state
  let cu := critic_update_fn critic_grad opt_states.critic_opt_state
  (⟨params.actor_params + au.1, params.critic_params + cu.1⟩, ⟨au.2, cu.2⟩)

/-- After the batch-then-device pmean pair, every replica holds the same
value: the mean over devices of the per-device batch means. -/
theorem sync_grads_const (gs : List (List ℚ)) (L : Nat)
    (hlen : ∀ dev ∈ gs, dev.length = L) (d b : Nat)
    (hd : d < gs.length) (hb : b < L) :
    ent (sync_grads gs) d b = meanQ (gs.map meanQ) := by
  unfold sync_grads pmean_device pmean_batch ent
  rw [getD_map_of_lt _ _ _ [] _ (by rw [List.length_map]; exact hd)]
  have hdev : (gs.map (fun dev => dev.map (fun _ => meanQ dev))).getD d [] =
      (gs.getD d []).map (fun _ => meanQ (gs.getD d [])) :=
    getD_map_of_lt _ _ _ [] _ hd
  rw [hdev, List.length_map]
  have hdL : (gs.getD d []).length = L := by
    have hmem : gs.getD d [] ∈ gs := by
      rw [List.getD_eq_getElem?_getD, List.getElem?_eq_getElem hd]
      exact List.getElem_mem hd
    exact hlen _ hmem
  rw [getD_range_map _ _ _ _ (by rw [hdL]; exact hb)]
  congr 1
  rw [List.map_map]
  apply List.map_congr_left
  intro dev hdevmem
  show ((dev.map (fun _ => meanQ dev)).getD b 0) = meanQ dev
  rw [getD_map_of_lt _ _ _ 0 _ (by rw [hlen dev hdevmem]; exact hb)]

/-- C6: actor and critic gradients (and any per-replica scalar statistic,
e.g. the loss metrics) are averaged over the batch axis and then over the
device axis before the optimiser update runs; hence two replicas that
enter a minibatch update with the same parameters and optimiser states but
arbitrary different local gradients leave it with identical parameters,
optimiser states and synchronised statistics. -/
theorem grad_sync_identical_params {SA SC : Type}
    (actor_update_fn : ℚ → SA → ℚ × SA)
    (critic_update_fn : ℚ → SC → ℚ × SC)
    (params : Params ℚ ℚ) (opt_states : OptStates SA SC)
    (ags cgs lgs : List (List ℚ)) (L : Nat)
    (halen : ∀ dev ∈ ags, dev.length = L)
    (hclen : ∀ dev ∈ cgs, dev.length = L)
    (hllen : ∀ dev ∈ lgs, dev.length = L)
    (d1 b1 d2 b2 : Nat)
    (hd1a : d1 < ags.length) (hd2a : d2 < ags.length)
    (hd1c : d1 < cgs.length) (hd2c : d2 < cgs.length)
    (hd1l : d1 < lgs.length) (hd2l : d2 < lgs.length)
    (hb1 : b1 < L) (hb2 : b2 < L) :
    update_minibatch_replica actor_update_fn critic_update_fn params
        opt_states (ent (sync_grads ags) d1 b1) (ent (sync_grads cgs) d1 b1) =
      update_minibatch_replica actor_update_fn critic_update_fn params
        opt_states (ent (sync_grads ags) d2 b2) (ent (sync_grads cgs) d2 b2)
    ∧ ent (sync_grads lgs) d1 b1 = ent (sync_grads lgs) d2 b2 := by
  rw [sync_grads_const ags L halen d1 b1 hd1a hb1,
    sync_grads_const ags L halen d2 b2 hd2a hb2,
    sync_grads_const cgs L hclen d1 b1 hd1c hb1,
    sync_grads_const cgs L hclen d2 b2 hd2c hb2,
    sync_grads_const lgs L hllen d1 b1 hd1l hb1,
    sync_grads_const lgs L hllen d2 b2 hd2l hb2]
  exact ⟨rfl, rfl⟩

/-- Witness for C6: two devices with two batch replicas each, all four
replicas holding different local gradients and loss values, compared at
replica `(0,0)` versus `(1,1)`. -/
theorem grad_sync_identical_params_witness :
    (0 : Nat) < 2 ∧ (1 : Nat) < 2
    ∧ (update_minibatch_replica (fun g s => (g, s + 1))
        (fun g s => (2 * g, s)) ⟨0, 0⟩ (⟨5, 6⟩ : OptStates ℚ ℚ)
        (ent (sync_grads [[1, 3], [5, 7]]) 0 0)
        (ent (sync_grads [[2, 2], [4, 8]]) 0 0) =
      update_minibatch_replica (fun g s => (g, s + 1))
        (fun g s => (2 * g, s)) ⟨0, 0⟩ (⟨5, 6⟩ : OptStates ℚ ℚ)
        (ent (sync_grads [[1, 3], [5, 7]]) 1 1)
        (ent (sync_grads [[2, 2], [4, 8]]) 1 1)
    ∧ ent (sync_grads [[9, 1], [2, 4]]) 0 0 =
        ent (sync_grads [[9, 1], [2, 4]]) 1 1) :=
  ⟨by decide, by decide,
   grad_sync_identical_params (fun g s => (g, s + 1)) (fun g s => (2 * g, s))
     ⟨0, 0⟩ ⟨5, 6⟩ [[1, 3], [5, 7]] [[2, 2], [4, 8]] [[9, 1], [2, 4]] 2
     (by simp) (by simp) (by simp) 0 0 1 1
     (by decide) (by decide) (by decide) (by decide) (by decide) (by decide)
     (by decide) (by decide)⟩

end RecMappo
